import Mathlib

/-!
# Card brand identification and Luhn validation

A shallow embedding of `src/index.js`: the three exported functions
`discoverBandeira`, `luhnCheck` and `validateCreditCard`, together with the
regular expressions they use.

Modelling conventions.

* A JavaScript string is a Lean `String`; the functions work on its list of
  characters. Only the ASCII digits, the hyphen and the white-space characters
  are ever distinguished by the code, so every other character (whatever its
  UTF-16 encoding) behaves alike.
* `null` is `none`; a JavaScript number that may be `NaN` is an `Option Nat`
  with `none` for `NaN`. The running sum of `luhnCheck` is bounded by nine
  times the length of the string, far below `2 ^ 53`, so it is exact.
* An anchored regular expression `/^(a|b|...)/` is a list of alternatives, each
  a list of one-character atoms, matched against a prefix of the string.
-/

namespace CardId

/-! ## Characters and regular expressions -/

/-- The class `\s` of a JavaScript regular expression: the white-space
characters and the line terminators of ECMAScript. -/
def isWhiteSpace (c : Char) : Bool :=
  c.toNat == 0x09 || c.toNat == 0x0A || c.toNat == 0x0B || c.toNat == 0x0C ||
  c.toNat == 0x0D || c.toNat == 0x20 || c.toNat == 0xA0 || c.toNat == 0x1680 ||
  (0x2000 ≤ c.toNat && c.toNat ≤ 0x200A) || c.toNat == 0x2028 || c.toNat == 0x2029 ||
  c.toNat == 0x202F || c.toNat == 0x205F || c.toNat == 0x3000 || c.toNat == 0xFEFF

/-- The hyphen, the second alternative of the separator pattern. -/
def isHyphen (c : Char) : Bool := c.toNat == 0x2D

/-- The class `\d` of a JavaScript regular expression: the ASCII digits. -/
def isDigit (c : Char) : Bool := 48 ≤ c.toNat && c.toNat ≤ 57

/-- The expression `cardNumber.replace(sep, '')` where `sep` is the global pattern
with the two alternatives `\s` and hyphen: every character matched by one of
them is deleted, the others are kept in order. -/
def cleanCardNumber (cardNumber : String) : String :=
  ⟨cardNumber.data.filter (fun c => !(isWhiteSpace c || isHyphen c))⟩

/-- The test `/^\d+$/.test(s)`: one or more digits and nothing else. -/
def onlyDigits (s : String) : Bool :=
  !s.data.isEmpty && s.data.all isDigit

/-- One-character atoms of the brand patterns. -/
inductive Atom where
  /-- A literal character, such as `4`. -/
  | lit (c : Char)
  /-- A range class, such as `[1-5]`. -/
  | range (lo hi : Char)
  /-- A set class, such as `[01]`. -/
  | oneOf (cs : List Char)
  /-- The class `\d`. -/
  | digit

/-- Whether an atom matches a character. -/
def Atom.test : Atom → Char → Bool
  | .lit l, c => c.toNat == l.toNat
  | .range lo hi, c => lo.toNat ≤ c.toNat && c.toNat ≤ hi.toNat
  | .oneOf cs, c => cs.any (fun l => c.toNat == l.toNat)
  | .digit, c => isDigit c

/-- A sequence of literal characters, such as `4011`. -/
def lits (s : String) : List Atom := s.data.map Atom.lit

/-- Whether a sequence of atoms matches a prefix of the characters. -/
def matchPrefix : List Atom → List Char → Bool
  | [], _ => true
  | _ :: _, [] => false
  | a :: as, c :: cs => a.test c && matchPrefix as cs

/-- The test `/^(alt₁|alt₂|...)/.test(s)`. -/
def regexTest (alts : List (List Atom)) (s : String) : Bool :=
  alts.any (fun alt => matchPrefix alt s.data)

/-! ## The brand table -/

/-- An entry of `bandeiraPatterns`. -/
structure BandeiraPattern where
  name : String
  regex : List (List Atom)

/-- The ordered table `bandeiraPatterns` of `discoverBandeira`. -/
def bandeiraPatterns : List BandeiraPattern :=
  [ { name := "Elo",
      -- /^(4011|4312|4389|4514|4576|5041|5066|5067|509\d|6277|6362|6363|6550)/
      regex := [lits "4011", lits "4312", lits "4389", lits "4514", lits "4576",
                lits "5041", lits "5066", lits "5067", lits "509" ++ [.digit],
                lits "6277", lits "6362", lits "6363", lits "6550"] },
    { name := "Visa",
      -- /^4/
      regex := [lits "4"] },
    { name := "MasterCard",
      -- /^(5[1-5]|222[1-9]|22[3-9]\d|2[3-6]\d{2}|27[01]\d|2720)/
      regex := [lits "5" ++ [.range '1' '5'],
                lits "222" ++ [.range '1' '9'],
                lits "22" ++ [.range '3' '9', .digit],
                lits "2" ++ [.range '3' '6', .digit, .digit],
                lits "27" ++ [.oneOf ['0', '1'], .digit],
                lits "2720"] },
    { name := "American Express",
      -- /^(34|37)/
      regex := [lits "34", lits "37"] },
    { name := "Discover",
      -- /^(6011|65|64[4-9])/
      regex := [lits "6011", lits "65", lits "64" ++ [.range '4' '9']] },
    { name := "Hipercard",
      -- /^6062/
      regex := [lits "6062"] },
    { name := "Diners Club",
      -- /^(30[0-5]|36|38)/
      regex := [lits "30" ++ [.range '0' '5'], lits "36", lits "38"] },
    { name := "JCB",
      -- /^(352[89]|35[0-8][0-9])/
      regex := [lits "352" ++ [.oneOf ['8', '9']],
                lits "35" ++ [.range '0' '8', .range '0' '9']] },
    { name := "EnRoute",
      -- /^(2014|2149)/
      regex := [lits "2014", lits "2149"] },
    { name := "Voyager",
      -- /^8699/
      regex := [lits "8699"] },
    { name := "Aura",
      -- /^(50|5[6-8]|6)/
      regex := [lits "50", lits "5" ++ [.range '6' '8'], lits "6"] } ]

/-- The loop `for (const { name, regex } of bandeiraPatterns)`: the name of the
first pattern that matches, `none` when the loop ends without a match. -/
def firstMatch : List BandeiraPattern → String → Option String
  | [], _ => none
  | p :: ps, s => if regexTest p.regex s then some p.name else firstMatch ps s

/-- The function `discoverBandeira`. -/
def discoverBandeira (cardNumber : String) : Option String :=
  let clean := cleanCardNumber cardNumber
  if !onlyDigits clean then none
  else firstMatch bandeiraPatterns clean

/-! ## The Luhn checksum -/

/-- The call `parseInt(s[i], 10)` on one character of a string: the value of a
digit, `NaN` for any other character and for an index outside the string. -/
def parseInt (c : Option Char) : Option Nat :=
  match c with
  | some c => if isDigit c then some (c.toNat - 48) else none
  | none => none

/-- The body of the loop of `luhnCheck`, run for the indices `i - 1, ..., 0`
(the first argument is one more than the loop variable). -/
def luhnLoop (clean : List Char) : Nat → Option Nat → Bool → Option Nat
  | 0, sum, _ => sum
  | i + 1, sum, isEven =>
    let digit := parseInt clean[i]?
    let digit :=
      if isEven then
        match digit with
        | some d => if d * 2 > 9 then some (d * 2 - 9) else some (d * 2)
        | none => none
      else digit
    let sum :=
      match sum, digit with
      | some s, some d => some (s + d)
      | _, _ => none
    luhnLoop clean i sum (!isEven)

/-- The function `luhnCheck`. -/
def luhnCheck (cardNumber : String) : Bool :=
  let clean := cleanCardNumber cardNumber
  match luhnLoop clean.data clean.data.length (some 0) false with
  | some sum => sum % 10 == 0
  | none => false

/-! ## The orchestrator -/

/-- The record returned by `validateCreditCard`. -/
structure ValidationResult where
  isValid : Bool
  bandeira : Option String
  message : String
  deriving DecidableEq, Repr

/-- The function `validateCreditCard`. The test `!bandeira` holds for `null` and
for the empty string. -/
def validateCreditCard (cardNumber : String) : ValidationResult :=
  let clean := cleanCardNumber cardNumber
  if !onlyDigits clean then
    { isValid := false, bandeira := none,
      message := "Card number must contain only digits" }
  else
    let bandeira := discoverBandeira clean
    match bandeira with
    | none =>
      { isValid := false, bandeira := none,
        message := "Unable to identify card brand from the number" }
    | some b =>
      if b == "" then
        { isValid := false, bandeira := none,
          message := "Unable to identify card brand from the number" }
      else if !luhnCheck clean then
        { isValid := false, bandeira := some b,
          message := "Detected as " ++ b ++ ", but failed Luhn validation" }
      else
        { isValid := true, bandeira := some b,
          message := "Valid " ++ b ++ " card" }

/-! ## Reference definitions -/

/-- The numeric value of a digit character. -/
def digitValue (c : Char) : Nat := c.toNat - 48

/-- The digit `d_i` of a digit string, counted from the right: `d_0` is the
rightmost digit. -/
def digitFromRight (s : String) (i : Nat) : Nat :=
  match s.data.reverse[i]? with
  | some c => digitValue c
  | none => 0

/-- The standard mod-10 sum of a digit string, following the wording of the
specification: `d_i` is added unchanged for every even `i`, and the sum of the
two decimal digits of `2 * d_i` is added for every odd `i`. -/
def standardSum (s : String) : Nat :=
  ((List.range s.data.length).map (fun i =>
    if i % 2 = 0 then digitFromRight s i
    else (2 * digitFromRight s i) / 10 + (2 * digitFromRight s i) % 10)).sum

/-- What one round of the loop of `luhnCheck` adds to the sum for a digit of
value `d`. -/
def luhnTerm (isEven : Bool) (d : Nat) : Nat :=
  if isEven then (if d * 2 > 9 then d * 2 - 9 else d * 2) else d

/-- The sum of the loop of `luhnCheck` over digit values listed from the
rightmost one, the flag being `isEven` at the first of them. -/
def luhnSum : Bool → List Nat → Nat
  | _, [] => 0
  | isEven, d :: ds => luhnTerm isEven d + luhnSum (!isEven) ds

/-- Whether the string starts with the given literal digits. -/
def startsWith (s p : String) : Bool := p.data.isPrefixOf s.data

/-- The leading `k` digits of a digit string read as a decimal number; `none`
when the string has fewer than `k` characters. -/
def leadingNumber (k : Nat) (s : String) : Option Nat :=
  if k ≤ s.data.length then
    some ((s.data.take k).foldl (fun n c => 10 * n + digitValue c) 0)
  else none

/-- Whether the leading `k` digits, read as a number, lie in `lo..hi`
inclusively. -/
def leadingInRange (k lo hi : Nat) (s : String) : Bool :=
  match leadingNumber k s with
  | some n => lo ≤ n && n ≤ hi
  | none => false

/-- A prefix condition of the rule table of the specification (§4.2). -/
inductive PrefixCond where
  /-- The string starts with these literal digits. -/
  | literal (p : String)
  /-- The leading `k` digits, read as a number, lie in `lo..hi` inclusively. -/
  | inRange (k lo hi : Nat)

/-- Whether a prefix condition holds for a digit string. -/
def PrefixCond.holds : PrefixCond → String → Bool
  | .literal p, s => startsWith s p
  | .inRange k lo hi, s => leadingInRange k lo hi s

/-- The rule table of the specification (§4.2), rows 1 to 11, written from its
words: `509x` is the range 5090 to 5099 of the four leading digits. -/
def specTable : List (String × List PrefixCond) :=
  [ ("Elo", [.literal "4011", .literal "4312", .literal "4389", .literal "4514",
             .literal "4576", .literal "5041", .literal "5066", .literal "5067",
             .inRange 4 5090 5099, .literal "6277", .literal "6362", .literal "6363",
             .literal "6550"]),
    ("Visa", [.literal "4"]),
    ("MasterCard", [.inRange 2 51 55, .inRange 4 2221 2720]),
    ("American Express", [.literal "34", .literal "37"]),
    ("Discover", [.literal "6011", .literal "65", .inRange 3 644 649]),
    ("Hipercard", [.literal "6062"]),
    ("Diners Club", [.inRange 3 300 305, .literal "36", .literal "38"]),
    ("JCB", [.inRange 4 3528 3589]),
    ("EnRoute", [.literal "2014", .literal "2149"]),
    ("Voyager", [.literal "8699"]),
    ("Aura", [.literal "50", .inRange 2 56 58, .literal "6"]) ]

/-- The brand of the first row of the specification's table whose prefix
condition holds, `none` when no row's condition holds. -/
def classifySpec (s : String) : Option String :=
  (specTable.find? (fun row => row.2.any (fun cond => cond.holds s))).map (fun row => row.1)

/-- A separator in the sense of the specification (§6): the space character
U+0020 or the hyphen. -/
def isSeparator (c : Char) : Bool := c.toNat == 0x20 || c.toNat == 0x2D

/-- The input with its separators removed, in the words of the specification
(§6): every space character U+0020 and every hyphen deleted, every other
character kept in order. -/
def stripSeparators (s : String) : String :=
  ⟨s.data.filter (fun c => !isSeparator c)⟩

/-- The relation between a string and a string obtained from it by inserting or deleting
any number of separators at any positions. -/
inductive SepEdit : List Char → List Char → Prop where
  /-- Nothing inserted or deleted. -/
  | refl (s : List Char) : SepEdit s s
  /-- One more separator inserted. -/
  | ins {s : List Char} (a b : List Char) (c : Char) :
      isSeparator c = true → SepEdit s (a ++ b) → SepEdit s (a ++ c :: b)
  /-- One more separator deleted. -/
  | del {s : List Char} (a b : List Char) (c : Char) :
      isSeparator c = true → SepEdit s (a ++ c :: b) → SepEdit s (a ++ b)

/-! ## Basic facts -/

theorem isDigit_not_separator {c : Char} (h : isDigit c = true) :
    (isWhiteSpace c || isHyphen c) = false := by
  simp only [isDigit, Bool.and_eq_true, decide_eq_true_eq] at h
  simp only [isWhiteSpace, isHyphen, Bool.or_eq_false_iff, Bool.and_eq_false_iff,
    beq_eq_false_iff_ne, ne_eq, decide_eq_false_iff_not]
  omega

theorem cleanCardNumber_idem (s : String) :
    cleanCardNumber (cleanCardNumber s) = cleanCardNumber s := by
  simp [cleanCardNumber, List.filter_filter]

theorem cleanCardNumber_of_all_digits {s : String}
    (h : ∀ c ∈ s.data, isDigit c = true) : cleanCardNumber s = s := by
  cases s with
  | mk l =>
    have hl : l.filter (fun c => !(isWhiteSpace c || isHyphen c)) = l := by
      rw [List.filter_eq_self]
      intro c hc
      simp [isDigit_not_separator (h c hc)]
    simp only [cleanCardNumber, hl]

theorem onlyDigits_iff (s : String) :
    onlyDigits s = true ↔ s.data ≠ [] ∧ ∀ c ∈ s.data, isDigit c = true := by
  simp [onlyDigits, List.isEmpty_iff]

theorem onlyDigits_eq_false {s : String}
    (h : s.data = [] ∨ ∃ c ∈ s.data, isDigit c = false) : onlyDigits s = false := by
  rw [← Bool.not_eq_true, onlyDigits_iff]
  rcases h with h | ⟨c, hc, hcd⟩
  · simp [h]
  · intro hh
    simp [hh.2 c hc] at hcd

theorem cleanCardNumber_of_onlyDigits {s : String} (h : onlyDigits s = true) :
    cleanCardNumber s = s :=
  cleanCardNumber_of_all_digits ((onlyDigits_iff s).1 h).2

theorem firstMatch_some {ps : List BandeiraPattern} {s : String} {b : String}
    (h : firstMatch ps s = some b) : ∃ p ∈ ps, p.name = b ∧ regexTest p.regex s = true := by
  induction ps with
  | nil => simp [firstMatch] at h
  | cons p ps ih =>
    simp only [firstMatch] at h
    split at h
    · next ht => exact ⟨p, by simp, by simpa using h, ht⟩
    · obtain ⟨q, hq, hn⟩ := ih h
      exact ⟨q, by simp [hq], hn⟩

theorem discoverBandeira_ne_empty {s b : String} (h : discoverBandeira s = some b) :
    b ≠ "" := by
  simp only [discoverBandeira] at h
  split at h
  · simp at h
  · obtain ⟨p, hp, rfl, -⟩ := firstMatch_some h
    simp only [bandeiraPatterns, List.mem_cons, List.mem_singleton, List.not_mem_nil,
      or_false] at hp
    rcases hp with h | h | h | h | h | h | h | h | h | h | h <;> subst h <;> decide

/-! ## The loop of `luhnCheck` as a sum -/

theorem luhnLoop_append (pre suf : List Char) :
    ∀ (k : Nat) (sum : Option Nat) (isEven : Bool), k ≤ pre.length →
      luhnLoop (pre ++ suf) k sum isEven = luhnLoop pre k sum isEven := by
  intro k
  induction k with
  | zero => intro sum isEven _; simp [luhnLoop]
  | succ k ih =>
    intro sum isEven hk
    have hlt : k < pre.length := hk
    simp only [luhnLoop, List.getElem?_append_left hlt]
    exact ih _ _ (Nat.le_of_lt hlt)

theorem luhnLoop_step_digit (clean : List Char) (i acc : Nat) (isEven : Bool) (c : Char)
    (hget : clean[i]? = some c) (hc : isDigit c = true) :
    luhnLoop clean (i + 1) (some acc) isEven =
      luhnLoop clean i (some (acc + luhnTerm isEven (digitValue c))) (!isEven) := by
  show luhnLoop clean i _ (!isEven) = _
  congr 1
  cases isEven
  · simp [hget, parseInt, hc, luhnTerm, digitValue]
  · by_cases hgt : (c.toNat - 48) * 2 > 9 <;>
      simp [hget, parseInt, hc, luhnTerm, digitValue, hgt]

theorem luhnLoop_digits (cs : List Char) :
    (∀ c ∈ cs, isDigit c = true) → ∀ (acc : Nat) (isEven : Bool),
      luhnLoop cs cs.length (some acc) isEven =
        some (acc + luhnSum isEven (cs.reverse.map digitValue)) := by
  induction cs using List.reverseRecOn with
  | nil => intro _ acc isEven; simp [luhnLoop, luhnSum]
  | append_singleton pre c ih =>
    intro h acc isEven
    have hc : isDigit c = true := h c (by simp)
    have hpre : ∀ x ∈ pre, isDigit x = true := fun x hx => h x (by simp [hx])
    have hlen : (pre ++ [c]).length = pre.length + 1 := by simp
    have hget : (pre ++ [c])[pre.length]? = some c := by simp
    rw [hlen, luhnLoop_step_digit _ _ _ _ c hget hc,
      luhnLoop_append pre [c] pre.length _ _ (Nat.le_refl _), ih hpre,
      List.reverse_append, List.reverse_singleton, List.singleton_append, List.map_cons,
      luhnSum, Nat.add_assoc]

theorem luhnCheck_digits (s : String) (h : ∀ c ∈ s.data, isDigit c = true) :
    luhnCheck s = (luhnSum false (s.data.reverse.map digitValue) % 10 == 0) := by
  simp only [luhnCheck, cleanCardNumber_of_all_digits h, luhnLoop_digits s.data h,
    Nat.zero_add]

theorem digitValue_lt {c : Char} (h : isDigit c = true) : digitValue c < 10 := by
  simp only [isDigit, Bool.and_eq_true, decide_eq_true_eq] at h
  simp only [digitValue]
  omega

theorem luhnTerm_eq_digit_sum (k d : Nat) (hd : d < 10) :
    (if k % 2 = 0 then d else 2 * d / 10 + 2 * d % 10) = luhnTerm (decide (k % 2 = 1)) d := by
  by_cases hk : k % 2 = 0
  · have : ¬ k % 2 = 1 := by omega
    simp [luhnTerm, hk, this]
  · have hk1 : k % 2 = 1 := by omega
    rw [if_neg hk]
    simp only [luhnTerm, hk1, decide_True, if_true]
    split_ifs <;> omega

theorem sum_range_eq_luhnSum (ds : List Nat) :
    (∀ d ∈ ds, d < 10) → ∀ k : Nat,
      ((List.range ds.length).map (fun i =>
        if (k + i) % 2 = 0 then ds[i]?.getD 0
        else 2 * ds[i]?.getD 0 / 10 + 2 * ds[i]?.getD 0 % 10)).sum =
      luhnSum (decide (k % 2 = 1)) ds := by
  induction ds with
  | nil => intro _ k; simp [luhnSum]
  | cons d ds ih =>
    intro h k
    have hd : d < 10 := h d (by simp)
    have hds : ∀ x ∈ ds, x < 10 := fun x hx => h x (by simp [hx])
    have hflip : decide ((k + 1) % 2 = 1) = !decide (k % 2 = 1) := by
      by_cases hk : k % 2 = 1
      · have : ¬ (k + 1) % 2 = 1 := by omega
        simp [hk, this]
      · have : (k + 1) % 2 = 1 := by omega
        simp [hk, this]
    rw [List.length_cons, List.range_succ_eq_map, List.map_cons, List.sum_cons, List.map_map,
      luhnSum, ← hflip, ← ih hds (k + 1)]
    congr 1
    · simpa using luhnTerm_eq_digit_sum k d hd
    · congr 1
      apply List.map_congr_left
      intro i _
      simp [Nat.add_assoc, Nat.add_comm 1 i]

theorem standardSum_eq_luhnSum (s : String) (h : ∀ c ∈ s.data, isDigit c = true) :
    standardSum s = luhnSum false (s.data.reverse.map digitValue) := by
  have hlt : ∀ d ∈ s.data.reverse.map digitValue, d < 10 := by
    intro d hd
    obtain ⟨c, hc, rfl⟩ := List.mem_map.1 hd
    exact digitValue_lt (h c (List.mem_reverse.1 hc))
  have key := sum_range_eq_luhnSum _ hlt 0
  simp only [List.length_map, List.length_reverse, Nat.zero_add] at key
  rw [← show decide (0 % 2 = 1) = false from rfl, ← key]
  simp only [standardSum, digitFromRight]
  congr 1
  apply List.map_congr_left
  intro i _
  simp only [List.getElem?_map]
  cases s.data.reverse[i]? <;> rfl

theorem char_eq_of_toNat_eq {c d : Char} (h : c.toNat = d.toNat) : c = d :=
  Char.ext (UInt32.toNat.inj h)

theorem digitValue_inj {c d : Char} (hc : isDigit c = true) (hd : isDigit d = true)
    (h : digitValue c = digitValue d) : c = d := by
  simp only [isDigit, Bool.and_eq_true, decide_eq_true_eq] at hc hd
  simp only [digitValue] at h
  exact char_eq_of_toNat_eq (by omega)

theorem luhnSum_append (a : List Nat) :
    ∀ isEven : Bool, ∃ e : Bool, ∀ b : List Nat,
      luhnSum isEven (a ++ b) = luhnSum isEven a + luhnSum e b := by
  induction a with
  | nil => intro isEven; exact ⟨isEven, fun b => by simp [luhnSum]⟩
  | cons d ds ih =>
    intro isEven
    obtain ⟨e, he⟩ := ih (!isEven)
    exact ⟨e, fun b => by simp [luhnSum, he, Nat.add_assoc]⟩

theorem luhnTerm_lt (isEven : Bool) {x : Nat} (hx : x < 10) : luhnTerm isEven x < 10 := by
  cases isEven
  · simpa [luhnTerm] using hx
  · simp only [luhnTerm, if_true]
    split_ifs <;> omega

theorem luhnTerm_inj (isEven : Bool) {x y : Nat} (hx : x < 10) (hy : y < 10)
    (h : luhnTerm isEven x = luhnTerm isEven y) : x = y := by
  cases isEven
  · simpa [luhnTerm] using h
  · simp only [luhnTerm, if_true] at h
    split_ifs at h <;> omega

theorem luhnSum_replace (pre suf : List Nat) (x y : Nat) (hx : x < 10) (hy : y < 10)
    (hxy : x ≠ y) (isEven : Bool) (h : luhnSum isEven (pre ++ x :: suf) % 10 = 0) :
    luhnSum isEven (pre ++ y :: suf) % 10 ≠ 0 := by
  obtain ⟨e, he⟩ := luhnSum_append pre isEven
  rw [he, luhnSum] at h ⊢
  have h1 := luhnTerm_lt e hx
  have h2 := luhnTerm_lt e hy
  have h3 : luhnTerm e x ≠ luhnTerm e y := fun hh => hxy (luhnTerm_inj e hx hy hh)
  omega

/-! ## The brand table on digit strings -/

theorem isDigit_iff (c : Char) : isDigit c = true ↔ 48 ≤ c.toNat ∧ c.toNat ≤ 57 := by
  simp [isDigit]

theorem digit_code {c : Char} (h : isDigit c = true) : ∃ v, v < 10 ∧ c.toNat = v + 48 := by
  rw [isDigit_iff] at h
  exact ⟨c.toNat - 48, by omega, by omega⟩

theorem beq_char_eq (a b : Char) : (a == b) = (b.toNat == a.toNat) := by
  by_cases h : a = b
  · subst h; simp
  · have h2 : ¬ b.toNat = a.toNat := fun hh => h (char_eq_of_toNat_eq hh).symm
    simp [h, h2]

theorem isPrefixOf_eq_matchPrefix (p : List Char) :
    ∀ l : List Char, p.isPrefixOf l = matchPrefix (p.map Atom.lit) l := by
  induction p with
  | nil => intro l; simp [matchPrefix]
  | cons x xs ih =>
    intro l
    cases l with
    | nil => simp [matchPrefix]
    | cons y ys => simp [List.isPrefixOf, matchPrefix, Atom.test, ih ys, beq_char_eq]

theorem startsWith_eq_matchPrefix (s p : String) :
    startsWith s p = matchPrefix (lits p) s.data :=
  isPrefixOf_eq_matchPrefix p.data s.data

theorem firstMatch_cons_eq_some (p : BandeiraPattern) (ps : List BandeiraPattern) (s b : String) :
    firstMatch (p :: ps) s = some b ↔
      (regexTest p.regex s = true ∧ p.name = b) ∨
      (regexTest p.regex s = false ∧ firstMatch ps s = some b) := by
  simp only [firstMatch]
  cases regexTest p.regex s <;> simp

theorem discoverBandeira_nil : discoverBandeira "" = none := by
  decide

theorem discoverBandeira_cons (a : Char) (t : List Char)
    (h : ∀ c ∈ (String.mk (a :: t)).data, isDigit c = true) :
    discoverBandeira ⟨a :: t⟩ = firstMatch bandeiraPatterns ⟨a :: t⟩ := by
  have hd : onlyDigits ⟨a :: t⟩ = true := (onlyDigits_iff _).2 ⟨by simp, h⟩
  simp only [discoverBandeira, cleanCardNumber_of_all_digits h, hd]
  simp

theorem firstMatch_head (p : BandeiraPattern) (ps : List BandeiraPattern) (s : String)
    (h : regexTest p.regex s = true) : firstMatch (p :: ps) s = some p.name := by
  simp [firstMatch, h]

/-! ## Separators -/

theorem isSeparator_stripped {c : Char} (h : isSeparator c = true) :
    (!(isWhiteSpace c || isHyphen c)) = false := by
  simp only [isSeparator, Bool.or_eq_true, beq_iff_eq] at h
  rcases h with h | h <;> simp [isWhiteSpace, isHyphen, h]

theorem stripSeparators_eq_clean {s : String}
    (h : ∀ c ∈ (stripSeparators s).data, isDigit c = true) :
    stripSeparators s = cleanCardNumber s := by
  simp only [stripSeparators, cleanCardNumber]
  congr 1
  apply List.filter_congr
  intro c hc
  cases hsep : isSeparator c with
  | false =>
    have hm : c ∈ (stripSeparators s).data := by simp [stripSeparators, hc, hsep]
    simp [isDigit_not_separator (h c hm)]
  | true => simp [isSeparator_stripped hsep]

theorem SepEdit.filter_eq {a b : List Char} (h : SepEdit a b) :
    b.filter (fun c => !(isWhiteSpace c || isHyphen c)) =
      a.filter (fun c => !(isWhiteSpace c || isHyphen c)) := by
  induction h with
  | refl => rfl
  | ins a b c hc _ ih =>
    rw [← ih, List.filter_append, List.filter_append, List.filter_cons,
      isSeparator_stripped hc]
    simp
  | del a b c hc _ ih =>
    rw [← ih, List.filter_append, List.filter_append, List.filter_cons,
      isSeparator_stripped hc]
    simp

/-! ## Cleaning twice, and the loop on a character that is not a digit -/

theorem discoverBandeira_clean (s : String) :
    discoverBandeira (cleanCardNumber s) = discoverBandeira s := by
  simp only [discoverBandeira, cleanCardNumber_idem]

theorem luhnCheck_clean (s : String) : luhnCheck (cleanCardNumber s) = luhnCheck s := by
  simp only [luhnCheck, cleanCardNumber_idem]

theorem luhnLoop_none (clean : List Char) :
    ∀ (k : Nat) (isEven : Bool), luhnLoop clean k none isEven = none := by
  intro k
  induction k with
  | zero => intro isEven; rfl
  | succ k ih =>
    intro isEven
    show luhnLoop clean k _ (!isEven) = none
    exact ih _

theorem luhnLoop_not_digit (clean : List Char) (i : Nat) (c : Char)
    (hget : clean[i]? = some c) (hc : isDigit c = false) :
    ∀ (k : Nat), i < k → ∀ (sum : Option Nat) (isEven : Bool),
      luhnLoop clean k sum isEven = none := by
  intro k
  induction k with
  | zero => intro hi; omega
  | succ k ih =>
    intro hi sum isEven
    by_cases hik : i = k
    · subst hik
      have hstep : luhnLoop clean (i + 1) sum isEven = luhnLoop clean i none (!isEven) := by
        show luhnLoop clean i _ (!isEven) = _
        congr 1
        cases isEven <;> cases sum <;> simp [hget, parseInt, hc]
      rw [hstep, luhnLoop_none]
    · show luhnLoop clean k _ (!isEven) = none
      exact ih (by omega) _ _

/-! ## Patterns look at four characters at most -/

theorem matchPrefix_take (alt : List Atom) :
    ∀ (k : Nat) (l : List Char), alt.length ≤ k →
      matchPrefix alt (l.take k) = matchPrefix alt l := by
  induction alt with
  | nil => intro k l _; simp [matchPrefix]
  | cons a as ih =>
    intro k l hk
    cases k with
    | zero => simp at hk
    | succ k =>
      cases l with
      | nil => simp [matchPrefix]
      | cons c cs =>
        simp only [List.take_succ_cons, matchPrefix]
        rw [ih k cs (by simpa using hk)]

theorem regexTest_take (k : Nat) (l : List Char) (alts : List (List Atom))
    (h : ∀ alt ∈ alts, alt.length ≤ k) :
    regexTest alts ⟨l.take k⟩ = regexTest alts ⟨l⟩ := by
  induction alts with
  | nil => rfl
  | cons alt alts ih =>
    have htl := ih (fun x hx => h x (by simp [hx]))
    simp only [regexTest, List.any_cons] at htl ⊢
    rw [matchPrefix_take alt k l (h alt (by simp)), htl]

theorem firstMatch_take (k : Nat) (l : List Char) (ps : List BandeiraPattern)
    (h : ∀ p ∈ ps, ∀ alt ∈ p.regex, alt.length ≤ k) :
    firstMatch ps ⟨l.take k⟩ = firstMatch ps ⟨l⟩ := by
  induction ps with
  | nil => rfl
  | cons p ps ih =>
    simp only [firstMatch, regexTest_take k l p.regex (h p (by simp))]
    rw [ih (fun q hq => h q (by simp [hq]))]

theorem bandeiraPatterns_length :
    ∀ p ∈ bandeiraPatterns, ∀ alt ∈ p.regex, alt.length ≤ 4 := by
  decide

/-! ## The last digit of a digit string -/

theorem exists_digit (v : Nat) (hv : v < 10) :
    ∃ d : Char, isDigit d = true ∧ digitValue d = v := by
  interval_cases v
  · exact ⟨'0', by decide, by decide⟩
  · exact ⟨'1', by decide, by decide⟩
  · exact ⟨'2', by decide, by decide⟩
  · exact ⟨'3', by decide, by decide⟩
  · exact ⟨'4', by decide, by decide⟩
  · exact ⟨'5', by decide, by decide⟩
  · exact ⟨'6', by decide, by decide⟩
  · exact ⟨'7', by decide, by decide⟩
  · exact ⟨'8', by decide, by decide⟩
  · exact ⟨'9', by decide, by decide⟩

theorem luhnCheck_snoc (p : String) (d : Char) (h : ∀ c ∈ p.data, isDigit c = true)
    (hd : isDigit d = true) :
    luhnCheck ⟨p.data ++ [d]⟩ =
      ((digitValue d + luhnSum true (p.data.reverse.map digitValue)) % 10 == 0) := by
  have hall : ∀ c ∈ (String.mk (p.data ++ [d])).data, isDigit c = true := by
    intro c hc
    rcases List.mem_append.1 hc with hc | hc
    · exact h c hc
    · rw [List.mem_singleton.1 hc]; exact hd
  rw [luhnCheck_digits _ hall]
  simp [luhnSum, luhnTerm]

/-! ## The orchestrator: the four outcomes -/

/-- C1, as stated, fails in its closing equivalence: with the tabs of this input
kept, as the removal of spaces and hyphens keeps them, the input is not a
digit string, yet `validateCreditCard` reports it as valid. -/
theorem validateCreditCard_valid_with_tabs :
    ¬ ((validateCreditCard "4539\t1488\t0343\t6467").isValid = true ↔
      onlyDigits (stripSeparators "4539\t1488\t0343\t6467") = true ∧
      (∃ b, discoverBandeira (stripSeparators "4539\t1488\t0343\t6467") = some b) ∧
      luhnCheck (stripSeparators "4539\t1488\t0343\t6467") = true) := by
  intro h
  have h1 := (h.1 (by decide)).1
  exact absurd h1 (by decide)

/-- C1, amended: writing `n` for the input with every white-space character of
the class `\s` and every hyphen removed, when `n` is a non-empty digit string
`validateCreditCard` returns the no-brand record if the classifier finds no
brand, the failed-Luhn record naming the brand if the checksum fails, and the
valid record naming the brand if the checksum passes; `isValid` is true
exactly when `n` is a non-empty digit string, a brand is found and the
checksum passes; and when the input with only its spaces and hyphens removed
is a non-empty digit string, that string is `n`, so the three outcomes hold
for it as well. -/
theorem validateCreditCard_outcomes (s : String) :
    (onlyDigits (cleanCardNumber s) = true →
      (discoverBandeira (cleanCardNumber s) = none →
        validateCreditCard s =
          ⟨false, none, "Unable to identify card brand from the number"⟩) ∧
      (∀ b, discoverBandeira (cleanCardNumber s) = some b →
        luhnCheck (cleanCardNumber s) = false →
        validateCreditCard s =
          ⟨false, some b, "Detected as " ++ b ++ ", but failed Luhn validation"⟩) ∧
      (∀ b, discoverBandeira (cleanCardNumber s) = some b →
        luhnCheck (cleanCardNumber s) = true →
        validateCreditCard s = ⟨true, some b, "Valid " ++ b ++ " card"⟩)) ∧
    ((validateCreditCard s).isValid = true ↔
      onlyDigits (cleanCardNumber s) = true ∧
      (∃ b, discoverBandeira (cleanCardNumber s) = some b) ∧
      luhnCheck (cleanCardNumber s) = true) ∧
    (onlyDigits (stripSeparators s) = true → cleanCardNumber s = stripSeparators s) := by
  refine ⟨fun hd => ⟨fun hn => ?_, fun b hb hl => ?_, fun b hb hl => ?_⟩, ?_,
    fun hs => (stripSeparators_eq_clean ((onlyDigits_iff _).1 hs).2).symm⟩
  · simp [validateCreditCard, hd, hn]
  · have hne := discoverBandeira_ne_empty hb
    simp [validateCreditCard, hd, hb, hl, hne]
  · have hne := discoverBandeira_ne_empty hb
    simp [validateCreditCard, hd, hb, hl, hne]
  · cases hd : onlyDigits (cleanCardNumber s) with
    | false => simp [validateCreditCard, hd]
    | true =>
      cases hb : discoverBandeira (cleanCardNumber s) with
      | none => simp [validateCreditCard, hd, hb]
      | some b =>
        have hne := discoverBandeira_ne_empty hb
        cases hl : luhnCheck (cleanCardNumber s) <;>
          simp [validateCreditCard, hd, hb, hl, hne]

/-- Witness of C1 at the three inputs of the specification: a valid Visa number
written with spaces, a Visa number failing the checksum, and a number of no
known brand. -/
theorem validateCreditCard_outcomes_witness :
    validateCreditCard "4539 1488 0343 6467" = ⟨true, some "Visa", "Valid Visa card"⟩ ∧
    validateCreditCard "4111111111111112" =
      ⟨false, some "Visa", "Detected as Visa, but failed Luhn validation"⟩ ∧
    validateCreditCard "9999999999999999" =
      ⟨false, none, "Unable to identify card brand from the number"⟩ :=
  ⟨((validateCreditCard_outcomes "4539 1488 0343 6467").1 (by decide)).2.2 "Visa"
      (by decide) (by decide),
   ((validateCreditCard_outcomes "4111111111111112").1 (by decide)).2.1 "Visa"
      (by decide) (by decide),
   ((validateCreditCard_outcomes "9999999999999999").1 (by decide)).1 (by decide)⟩

/-- C4, as stated, fails: with its spaces and hyphens removed this input still
holds a tab, which is not a decimal digit, yet `validateCreditCard` strips the
tab and reports a Visa number failing the checksum, not the record asking for
digits only. -/
theorem validateCreditCard_tab_not_reported :
    (∃ c ∈ (stripSeparators "41\t11").data, isDigit c = false) ∧
    validateCreditCard "41\t11" =
      ⟨false, some "Visa", "Detected as Visa, but failed Luhn validation"⟩ ∧
    validateCreditCard "41\t11" ≠ ⟨false, none, "Card number must contain only digits"⟩ :=
  ⟨⟨Char.ofNat 9, by decide, by decide⟩, by decide, by decide⟩

/-- C4, amended: when the input with every white-space character of the class
`\s` and every hyphen removed is empty or holds a character that is not a
decimal digit, `validateCreditCard` returns the record with `isValid` false,
no brand and the message asking for digits only. -/
theorem validateCreditCard_not_digits (s : String)
    (h : (cleanCardNumber s).data = [] ∨
      ∃ c ∈ (cleanCardNumber s).data, isDigit c = false) :
    validateCreditCard s = ⟨false, none, "Card number must contain only digits"⟩ := by
  have hd : onlyDigits (cleanCardNumber s) = false := onlyDigits_eq_false h
  simp [validateCreditCard, hd]

/-- Witness of C4 at the inputs `abcd1234` (letters) and the empty string. -/
theorem validateCreditCard_not_digits_witness :
    validateCreditCard "abcd1234" = ⟨false, none, "Card number must contain only digits"⟩ ∧
    validateCreditCard "" = ⟨false, none, "Card number must contain only digits"⟩ :=
  ⟨validateCreditCard_not_digits "abcd1234" (Or.inr ⟨'a', by decide, by decide⟩),
   validateCreditCard_not_digits "" (Or.inl (by decide))⟩

/-! ## The checksum -/

/-- C3: on every string of decimal digits `luhnCheck` returns true exactly when
the standard mod-10 sum (each digit at an even position from the right added
unchanged, the two decimal digits of twice each digit at an odd position
added) is divisible by 10. -/
theorem luhnCheck_iff_standardSum (s : String) (h : ∀ c ∈ s.data, isDigit c = true) :
    luhnCheck s = true ↔ standardSum s % 10 = 0 := by
  rw [luhnCheck_digits s h, standardSum_eq_luhnSum s h]
  simp

/-- Witness of C3 at the digit string `79927398713`. -/
theorem luhnCheck_iff_standardSum_witness :
    (∀ c ∈ "79927398713".data, isDigit c = true) ∧
    (luhnCheck "79927398713" = true ↔ standardSum "79927398713" % 10 = 0) :=
  ⟨by decide, luhnCheck_iff_standardSum "79927398713" (by decide)⟩

/-- C10: on a string of decimal digits that passes `luhnCheck`, replacing the
digit at any position by a different decimal digit gives a string that fails
`luhnCheck`. -/
theorem luhnCheck_single_digit_error (s : String) (i : Nat) (d : Char)
    (hs : ∀ c ∈ s.data, isDigit c = true) (hi : i < s.data.length)
    (hd : isDigit d = true) (hne : s.data[i]? ≠ some d) (hv : luhnCheck s = true) :
    luhnCheck ⟨s.data.set i d⟩ = false := by
  have hci : isDigit s.data[i] = true := hs _ (List.getElem_mem _)
  have hcd : s.data[i] ≠ d := fun hh => hne (by rw [List.getElem?_eq_getElem hi, hh])
  have hsplit : s.data = s.data.take i ++ s.data[i] :: s.data.drop (i + 1) := by
    rw [← List.drop_eq_getElem_cons hi, List.take_append_drop]
  have hset : s.data.set i d = s.data.take i ++ d :: s.data.drop (i + 1) := by
    rw [List.set_eq_take_append_cons_drop, if_pos hi]
  have hs2 : ∀ c ∈ (String.mk (s.data.set i d)).data, isDigit c = true := by
    intro c hc
    rcases List.mem_or_eq_of_mem_set hc with h | h
    · exact hs c h
    · exact h ▸ hd
  rw [luhnCheck_digits s hs, hsplit] at hv
  rw [luhnCheck_digits _ hs2]
  simp only [hset, List.reverse_append, List.reverse_cons, List.map_append, List.map_cons,
    List.map_nil, List.append_assoc, List.singleton_append, beq_iff_eq,
    beq_eq_false_iff_ne, ne_eq] at hv ⊢
  exact luhnSum_replace _ _ _ _ (digitValue_lt hci) (digitValue_lt hd)
    (fun hh => hcd (digitValue_inj hci hd hh)) false hv

/-- Witness of C10: `4111111111111111` passes, and with its last digit replaced
by `2` it fails. -/
theorem luhnCheck_single_digit_error_witness :
    luhnCheck "4111111111111111" = true ∧ luhnCheck "4111111111111112" = false :=
  ⟨by decide,
   luhnCheck_single_digit_error "4111111111111111" 15 '2' (by decide) (by decide)
     (by decide) (by decide) (by decide)⟩

/-! ## The classifier -/

/-- C7: on every string of decimal digits `discoverBandeira` returns MasterCard
exactly when the string starts with one of 51, 52, 53, 54, 55, or has at least
four digits whose first four, read as a number, lie in 2221 to 2720
inclusively. -/
theorem discoverBandeira_masterCard (s : String) (h : ∀ c ∈ s.data, isDigit c = true) :
    discoverBandeira s = some "MasterCard" ↔
      (startsWith s "51" = true ∨ startsWith s "52" = true ∨ startsWith s "53" = true ∨
        startsWith s "54" = true ∨ startsWith s "55" = true) ∨
      leadingInRange 4 2221 2720 s = true := by
  obtain ⟨l⟩ := s
  match l, h with
  | [], _ => simp [discoverBandeira_nil, startsWith, leadingInRange, leadingNumber]
  | [a], h =>
    obtain ⟨va, h1, hva⟩ := digit_code (h a (by simp))
    rw [discoverBandeira_cons _ _ h]
    simp only [bandeiraPatterns, firstMatch_cons_eq_some, startsWith_eq_matchPrefix]
    simp [firstMatch, regexTest, matchPrefix, lits, Atom.test, isDigit, leadingInRange,
      leadingNumber, digitValue, hva]
  | [a, b], h =>
    obtain ⟨va, h1, hva⟩ := digit_code (h a (by simp))
    obtain ⟨vb, h2, hvb⟩ := digit_code (h b (by simp))
    rw [discoverBandeira_cons _ _ h]
    simp only [bandeiraPatterns, firstMatch_cons_eq_some, startsWith_eq_matchPrefix]
    simp [firstMatch, regexTest, matchPrefix, lits, Atom.test, isDigit, leadingInRange,
      leadingNumber, digitValue, hva, hvb]
    clear hva hvb h
    interval_cases va <;> simp
    omega
  | [a, b, c], h =>
    obtain ⟨va, h1, hva⟩ := digit_code (h a (by simp))
    obtain ⟨vb, h2, hvb⟩ := digit_code (h b (by simp))
    obtain ⟨vc, h3, hvc⟩ := digit_code (h c (by simp))
    rw [discoverBandeira_cons _ _ h]
    simp only [bandeiraPatterns, firstMatch_cons_eq_some, startsWith_eq_matchPrefix]
    simp [firstMatch, regexTest, matchPrefix, lits, Atom.test, isDigit, leadingInRange,
      leadingNumber, digitValue, hva, hvb, hvc]
    clear hva hvb hvc h
    interval_cases va <;> simp
    omega
  | a :: b :: c :: d :: rest, h =>
    obtain ⟨va, h1, hva⟩ := digit_code (h a (by simp))
    obtain ⟨vb, h2, hvb⟩ := digit_code (h b (by simp))
    obtain ⟨vc, h3, hvc⟩ := digit_code (h c (by simp))
    obtain ⟨vd, h4, hvd⟩ := digit_code (h d (by simp))
    rw [discoverBandeira_cons _ _ h]
    simp only [bandeiraPatterns, firstMatch_cons_eq_some, startsWith_eq_matchPrefix]
    simp [firstMatch, regexTest, matchPrefix, lits, Atom.test, isDigit, leadingInRange,
      leadingNumber, digitValue, hva, hvb, hvc, hvd]
    clear hva hvb hvc hvd h
    interval_cases va <;> simp <;> (try omega)

/-- Witness of C7 at the upper end of the range, the digit string `2720`. -/
theorem discoverBandeira_masterCard_witness :
    (∀ c ∈ "2720".data, isDigit c = true) ∧
    (discoverBandeira "2720" = some "MasterCard" ↔
      (startsWith "2720" "51" = true ∨ startsWith "2720" "52" = true ∨
        startsWith "2720" "53" = true ∨ startsWith "2720" "54" = true ∨
        startsWith "2720" "55" = true) ∨
      leadingInRange 4 2221 2720 "2720" = true) :=
  ⟨by decide, discoverBandeira_masterCard "2720" (by decide)⟩

/-- C5: every string of decimal digits that starts with one of the Elo prefixes
(4011, 4312, 4389, 4514, 4576, 5041, 5066, 5067, 509 followed by any digit,
6277, 6362, 6363, 6550) is classified as Elo, and so never as Visa, Aura or
Discover. -/
theorem discoverBandeira_elo (s : String) (h : ∀ c ∈ s.data, isDigit c = true)
    (hp : startsWith s "4011" = true ∨ startsWith s "4312" = true ∨
      startsWith s "4389" = true ∨ startsWith s "4514" = true ∨
      startsWith s "4576" = true ∨ startsWith s "5041" = true ∨
      startsWith s "5066" = true ∨ startsWith s "5067" = true ∨
      (startsWith s "509" = true ∧ 4 ≤ s.data.length) ∨
      startsWith s "6277" = true ∨ startsWith s "6362" = true ∨
      startsWith s "6363" = true ∨ startsWith s "6550" = true) :
    discoverBandeira s = some "Elo" ∧ discoverBandeira s ≠ some "Visa" ∧
      discoverBandeira s ≠ some "Aura" ∧ discoverBandeira s ≠ some "Discover" := by
  have key : discoverBandeira s = some "Elo" := by
    obtain ⟨l⟩ := s
    match l, h with
    | [], _ => simp [startsWith] at hp
    | [a], _ => simp [startsWith] at hp
    | [a, b], _ => simp [startsWith] at hp
    | [a, b, c], _ => simp [startsWith] at hp
    | a :: b :: c :: d :: rest, h =>
      rw [discoverBandeira_cons _ _ h]
      have hd := h d (by simp)
      apply firstMatch_head
      simp only [startsWith_eq_matchPrefix] at hp
      simp [regexTest, matchPrefix, lits, Atom.test, hd] at hp ⊢
      exact hp
  rw [key]
  exact ⟨rfl, by decide, by decide, by decide⟩

/-- Witness of C5 at a digit string with the prefix 509 followed by a digit. -/
theorem discoverBandeira_elo_witness :
    discoverBandeira "5090123412341234" = some "Elo" ∧
      discoverBandeira "5090123412341234" ≠ some "Visa" ∧
      discoverBandeira "5090123412341234" ≠ some "Aura" ∧
      discoverBandeira "5090123412341234" ≠ some "Discover" :=
  discoverBandeira_elo "5090123412341234" (by decide) (by decide)

/-- C6, the code at a failing input: the sixteen-digit string starting with 3500
is classified as JCB although its first four digits, 3500, lie below 3528. -/
theorem discoverBandeira_jcb_low :
    discoverBandeira "3500000000000000" = some "JCB" ∧
    leadingNumber 4 "3500000000000000" = some 3500 ∧
    leadingInRange 4 3528 3589 "3500000000000000" = false := by decide

/-- C2, the code at a failing input: the sixteen-digit string starting with 3500
is classified as JCB by the code, while no row of the rule table of the
specification has a prefix condition that holds for it. -/
theorem discoverBandeira_jcb_off_table :
    discoverBandeira "3500000000000000" = some "JCB" ∧
    classifySpec "3500000000000000" = none := by decide

/-! ## Normalisation -/

/-- C8, as stated, fails: a tab is not a space or a hyphen, so the claim's
normalised form keeps the tabs of this input, yet the code strips them and
reports the number as a valid Visa card instead of asking for digits only. -/
theorem cleanCardNumber_strips_tab :
    (String.mk ("4539\t1488\t0343\t6467".data.filter (fun c => !isSeparator c))) =
      "4539\t1488\t0343\t6467" ∧
    cleanCardNumber "4539\t1488\t0343\t6467" = "4539148803436467" ∧
    validateCreditCard "4539\t1488\t0343\t6467" = ⟨true, some "Visa", "Valid Visa card"⟩ := by
  decide

/-- C8, amended: the normalised string is the input with every white-space
character of the class `\s` (tab, line feed, vertical tab, form feed, carriage
return, space, no-break space, U+1680, U+2000 to U+200A, U+2028, U+2029,
U+202F, U+205F, U+3000, U+FEFF) and every hyphen removed, every other
character kept in order; so an input holding a character that is neither
white space, hyphen nor decimal digit is reported with the message asking for
digits only. -/
theorem cleanCardNumber_spec (s : String) :
    (cleanCardNumber s).data = s.data.filter (fun c =>
      decide (c.toNat ∉ [0x09, 0x0A, 0x0B, 0x0C, 0x0D, 0x20, 0x2D, 0xA0, 0x1680, 0x2028,
        0x2029, 0x202F, 0x205F, 0x3000, 0xFEFF] ∧ ¬ (0x2000 ≤ c.toNat ∧ c.toNat ≤ 0x200A))) ∧
    ((∃ c ∈ s.data, isWhiteSpace c = false ∧ isHyphen c = false ∧ isDigit c = false) →
      validateCreditCard s = ⟨false, none, "Card number must contain only digits"⟩) := by
  constructor
  · simp only [cleanCardNumber]
    apply List.filter_congr
    intro c _
    simp only [isWhiteSpace, isHyphen, List.mem_cons, List.mem_singleton, List.not_mem_nil]
    rw [Bool.eq_iff_iff]
    simp only [Bool.not_eq_true', Bool.or_eq_false_iff, Bool.and_eq_false_iff,
      beq_eq_false_iff_ne, ne_eq, decide_eq_false_iff_not, decide_eq_true_eq]
    simp only [or_false]
    omega
  · rintro ⟨c, hc, hw, hh, hd⟩
    have hnd : onlyDigits (cleanCardNumber s) = false :=
      onlyDigits_eq_false (Or.inr ⟨c, by simp [cleanCardNumber, hc, hw, hh], hd⟩)
    simp [validateCreditCard, hnd]

/-- Witness of the amended C8 at an input with a letter among its digits. -/
theorem cleanCardNumber_spec_witness :
    validateCreditCard "4111x1111" = ⟨false, none, "Card number must contain only digits"⟩ :=
  (cleanCardNumber_spec "4111x1111").2 ⟨'x', by decide, by decide, by decide, by decide⟩

/-- C9: inserting or deleting spaces and hyphens anywhere in the input changes
none of the results of `validateCreditCard`, `discoverBandeira` and
`luhnCheck`. -/
theorem separators_irrelevant (s t : String) (h : SepEdit s.data t.data) :
    validateCreditCard t = validateCreditCard s ∧
    discoverBandeira t = discoverBandeira s ∧
    luhnCheck t = luhnCheck s := by
  have hc : cleanCardNumber t = cleanCardNumber s := by
    simp only [cleanCardNumber, h.filter_eq]
  simp only [validateCreditCard, discoverBandeira, luhnCheck, hc, and_self]

/-- Witness of C9: the number written with two hyphens and a space, against the
same number written without separators. -/
theorem separators_irrelevant_witness :
    validateCreditCard "4111-1111 1111-1111" = validateCreditCard "4111111111111111" ∧
    discoverBandeira "4111-1111 1111-1111" = discoverBandeira "4111111111111111" ∧
    luhnCheck "4111-1111 1111-1111" = luhnCheck "4111111111111111" :=
  separators_irrelevant "4111111111111111" "4111-1111 1111-1111"
    (SepEdit.ins "4111-1111 1111".data "1111".data '-' (by decide)
      (SepEdit.ins "4111-1111".data "11111111".data ' ' (by decide)
        (SepEdit.ins "4111".data "111111111111".data '-' (by decide)
          (SepEdit.refl "4111111111111111".data))))

/-! ## The exported functions on arbitrary input -/

/-- C11, as stated, fails: with its spaces and hyphens removed this input still
holds a tab, which is not a decimal digit, yet `discoverBandeira` strips the
tab and returns Visa. -/
theorem discoverBandeira_tab_brand :
    (∃ c ∈ (stripSeparators "41\t11").data, isDigit c = false) ∧
    discoverBandeira "41\t11" = some "Visa" :=
  ⟨⟨Char.ofNat 9, by decide, by decide⟩, by decide⟩

/-- C11, amended: when the input with every white-space character of the class
`\s` and every hyphen removed is empty or holds a character that is not a
decimal digit, `discoverBandeira` returns no brand; on every other input it
returns the result of the loop over the rule table on the cleaned digits. -/
theorem discoverBandeira_guard (s : String) :
    (((cleanCardNumber s).data = [] ∨ ∃ c ∈ (cleanCardNumber s).data, isDigit c = false) →
      discoverBandeira s = none) ∧
    (¬ ((cleanCardNumber s).data = [] ∨ ∃ c ∈ (cleanCardNumber s).data, isDigit c = false) →
      discoverBandeira s = firstMatch bandeiraPatterns (cleanCardNumber s)) := by
  constructor
  · intro h
    simp [discoverBandeira, onlyDigits_eq_false h]
  · intro h
    have hd : onlyDigits (cleanCardNumber s) = true := by
      rw [onlyDigits_iff]
      refine ⟨fun he => h (Or.inl he), fun c hc => ?_⟩
      cases hcd : isDigit c with
      | true => rfl
      | false => exact absurd (Or.inr ⟨c, hc, hcd⟩) h
    simp [discoverBandeira, hd]

/-- Witness of C11 at an input with letters, the empty input, and a digit input
written with a space. -/
theorem discoverBandeira_guard_witness :
    discoverBandeira "12ab" = none ∧ discoverBandeira "" = none ∧
    discoverBandeira "4111 1111" = firstMatch bandeiraPatterns (cleanCardNumber "4111 1111") :=
  ⟨(discoverBandeira_guard "12ab").1 (Or.inr ⟨'a', by decide, by decide⟩),
   (discoverBandeira_guard "").1 (Or.inl (by decide)),
   (discoverBandeira_guard "4111 1111").2 (by decide)⟩

/-- C13: `luhnCheck` returns true on the empty string and on every string made
only of spaces and hyphens: the cleaned string is empty and its sum is 0. -/
theorem luhnCheck_only_separators (s : String) (h : ∀ c ∈ s.data, isSeparator c = true) :
    luhnCheck s = true := by
  have hc : cleanCardNumber s = "" := by
    have : s.data.filter (fun c => !(isWhiteSpace c || isHyphen c)) = [] := by
      rw [List.filter_eq_nil_iff]
      intro c hc
      simp [isSeparator_stripped (h c hc)]
    simp only [cleanCardNumber, this]
  simp only [luhnCheck, hc]
  decide

/-- Witness of C13 at the empty string and at a string of spaces and hyphens. -/
theorem luhnCheck_only_separators_witness :
    luhnCheck "" = true ∧ luhnCheck " - -  " = true :=
  ⟨luhnCheck_only_separators "" (by decide), luhnCheck_only_separators " - -  " (by decide)⟩

/-- C14: cleaning an already cleaned string gives it back, and cleaning a string
made only of decimal digits returns it unchanged. -/
theorem cleanCardNumber_idempotent (s : String) :
    cleanCardNumber (cleanCardNumber s) = cleanCardNumber s ∧
    ((∀ c ∈ s.data, isDigit c = true) → cleanCardNumber s = s) :=
  ⟨cleanCardNumber_idem s, fun h => cleanCardNumber_of_all_digits h⟩

/-- Witness of C14 at a number written with separators and at the same number
written with digits only. -/
theorem cleanCardNumber_idempotent_witness :
    cleanCardNumber (cleanCardNumber "4111-1111 1111-1111") =
      cleanCardNumber "4111-1111 1111-1111" ∧
    cleanCardNumber "4111111111111111" = "4111111111111111" :=
  ⟨(cleanCardNumber_idempotent "4111-1111 1111-1111").1,
   (cleanCardNumber_idempotent "4111111111111111").2 (by decide)⟩

/-- C16: on every input the `bandeira` field of `validateCreditCard` equals the
result of `discoverBandeira`, and the `isValid` field is true exactly when
`discoverBandeira` finds a brand and `luhnCheck` returns true. -/
theorem exported_functions_agree (s : String) :
    (validateCreditCard s).bandeira = discoverBandeira s ∧
    (validateCreditCard s).isValid = ((discoverBandeira s).isSome && luhnCheck s) := by
  have hb := discoverBandeira_clean s
  have hl := luhnCheck_clean s
  cases hd : onlyDigits (cleanCardNumber s) with
  | false =>
    have : discoverBandeira s = none := by simp [discoverBandeira, hd]
    simp [validateCreditCard, hd, this]
  | true =>
    cases hdb : discoverBandeira s with
    | none =>
      rw [hdb] at hb
      simp [validateCreditCard, hd, hb]
    | some b =>
      rw [hdb] at hb
      have hne := discoverBandeira_ne_empty hdb
      cases hlc : luhnCheck s <;> rw [hlc] at hl <;>
        simp [validateCreditCard, hd, hb, hl, hne]

/-- C17, as stated, fails: with its spaces and hyphens removed this input still
holds a tab, which is not a decimal digit, yet `luhnCheck` strips the tab and
returns true on the remaining digit 0. -/
theorem luhnCheck_tab_passes :
    (∃ c ∈ (stripSeparators "\t0").data, isDigit c = false) ∧
    luhnCheck "\t0" = true :=
  ⟨⟨Char.ofNat 9, by decide, by decide⟩, by decide⟩

/-- C17, amended: when the input with every white-space character of the class
`\s` and every hyphen removed holds a character that is not a decimal digit,
`luhnCheck` returns false: the parse of that character is not a number, the
sum stays not a number, and the final test fails. -/
theorem luhnCheck_not_digit (s : String)
    (h : ∃ c ∈ (cleanCardNumber s).data, isDigit c = false) : luhnCheck s = false := by
  obtain ⟨c, hc, hcd⟩ := h
  obtain ⟨i, hi, hget⟩ := List.mem_iff_getElem.1 hc
  have hnone := luhnLoop_not_digit (cleanCardNumber s).data i c
    (by rw [List.getElem?_eq_getElem hi, hget]) hcd (cleanCardNumber s).data.length hi
    (some 0) false
  simp only [luhnCheck, hnone]

/-- Witness of C17 at inputs with a letter; with the letter counted as zero the
digits of the second input would sum to 0 and pass. -/
theorem luhnCheck_not_digit_witness :
    luhnCheck "411a" = false ∧ luhnCheck "0000 000x" = false :=
  ⟨luhnCheck_not_digit "411a" ⟨'a', by decide, by decide⟩,
   luhnCheck_not_digit "0000 000x" ⟨'x', by decide, by decide⟩⟩

/-! ## The classifier: later rows of the table -/

/-- C12: every string of decimal digits that starts with 6062 is classified as
Hipercard: no earlier pattern matches it, and the Aura pattern comes later. -/
theorem discoverBandeira_hipercard (s : String) (h : ∀ c ∈ s.data, isDigit c = true)
    (hp : startsWith s "6062" = true) : discoverBandeira s = some "Hipercard" := by
  obtain ⟨l⟩ := s
  match l, h with
  | [], _ => simp [startsWith] at hp
  | [a], _ => simp [startsWith] at hp
  | [a, b], _ => simp [startsWith] at hp
  | [a, b, c], _ => simp [startsWith] at hp
  | a :: b :: c :: d :: rest, h =>
    rw [discoverBandeira_cons _ _ h]
    simp only [startsWith_eq_matchPrefix] at hp
    simp [matchPrefix, lits, Atom.test] at hp
    obtain ⟨ha, hb, hc, hd⟩ := hp
    simp [firstMatch, bandeiraPatterns, regexTest, matchPrefix, lits, Atom.test, isDigit,
      ha, hb, hc, hd]

/-- Witness of C12 at the number of the specification. -/
theorem discoverBandeira_hipercard_witness :
    discoverBandeira "6062825624254001" = some "Hipercard" :=
  discoverBandeira_hipercard "6062825624254001" (by decide) (by decide)

/-- C19: on a string of decimal digits of length at least four the brand depends
only on the first four digits: it is the brand of the four-digit prefix, and
two such strings with the same first four digits get the same result. -/
theorem discoverBandeira_first_four (n : String) (h : ∀ c ∈ n.data, isDigit c = true)
    (hlen : 4 ≤ n.data.length) :
    discoverBandeira n = discoverBandeira ⟨n.data.take 4⟩ ∧
    ∀ m : String, (∀ c ∈ m.data, isDigit c = true) → 4 ≤ m.data.length →
      m.data.take 4 = n.data.take 4 → discoverBandeira m = discoverBandeira n := by
  have key : ∀ m : String, (∀ c ∈ m.data, isDigit c = true) → 4 ≤ m.data.length →
      discoverBandeira m = firstMatch bandeiraPatterns ⟨m.data.take 4⟩ := by
    intro m hm hl
    obtain ⟨l⟩ := m
    cases l with
    | nil => simp at hl
    | cons a t =>
      rw [discoverBandeira_cons a t hm, firstMatch_take 4 _ _ bandeiraPatterns_length]
  have htake : ∀ c ∈ (String.mk (n.data.take 4)).data, isDigit c = true :=
    fun c hc => h c (List.mem_of_mem_take hc)
  have hlen4 : 4 ≤ (String.mk (n.data.take 4)).data.length := by
    simp only [List.length_take]; omega
  refine ⟨?_, fun m hm hl hmn => ?_⟩
  · rw [key n h hlen, key _ htake hlen4]
    simp [List.take_take]
  · rw [key n h hlen, key m hm hl, hmn]

/-- Witness of C19 at two sixteen-digit strings with the first four digits
5090. -/
theorem discoverBandeira_first_four_witness :
    discoverBandeira "5090123412341234" = discoverBandeira "5090" ∧
    discoverBandeira "5090999999999999" = discoverBandeira "5090123412341234" :=
  ⟨(discoverBandeira_first_four "5090123412341234" (by decide) (by decide)).1,
   (discoverBandeira_first_four "5090123412341234" (by decide) (by decide)).2
     "5090999999999999" (by decide) (by decide) (by decide)⟩

/-- C20: each of the eleven brand names is returned by `discoverBandeira` on some
string of decimal digits, so no pattern is shadowed by the patterns before
it. -/
theorem every_brand_reachable :
    (∃ s : String, (∀ c ∈ s.data, isDigit c = true) ∧ discoverBandeira s = some "Elo") ∧
    (∃ s : String, (∀ c ∈ s.data, isDigit c = true) ∧ discoverBandeira s = some "Visa") ∧
    (∃ s : String, (∀ c ∈ s.data, isDigit c = true) ∧
      discoverBandeira s = some "MasterCard") ∧
    (∃ s : String, (∀ c ∈ s.data, isDigit c = true) ∧
      discoverBandeira s = some "American Express") ∧
    (∃ s : String, (∀ c ∈ s.data, isDigit c = true) ∧
      discoverBandeira s = some "Discover") ∧
    (∃ s : String, (∀ c ∈ s.data, isDigit c = true) ∧
      discoverBandeira s = some "Hipercard") ∧
    (∃ s : String, (∀ c ∈ s.data, isDigit c = true) ∧
      discoverBandeira s = some "Diners Club") ∧
    (∃ s : String, (∀ c ∈ s.data, isDigit c = true) ∧ discoverBandeira s = some "JCB") ∧
    (∃ s : String, (∀ c ∈ s.data, isDigit c = true) ∧
      discoverBandeira s = some "EnRoute") ∧
    (∃ s : String, (∀ c ∈ s.data, isDigit c = true) ∧
      discoverBandeira s = some "Voyager") ∧
    (∃ s : String, (∀ c ∈ s.data, isDigit c = true) ∧ discoverBandeira s = some "Aura") :=
  ⟨⟨"4011", by decide, by decide⟩, ⟨"4", by decide, by decide⟩,
   ⟨"51", by decide, by decide⟩, ⟨"34", by decide, by decide⟩,
   ⟨"6011", by decide, by decide⟩, ⟨"6062", by decide, by decide⟩,
   ⟨"36", by decide, by decide⟩, ⟨"3528", by decide, by decide⟩,
   ⟨"2014", by decide, by decide⟩, ⟨"8699", by decide, by decide⟩,
   ⟨"6", by decide, by decide⟩⟩

set_option maxHeartbeats 1000000 in
/-- C15: on every string of decimal digits `discoverBandeira` returns Aura
exactly when the string starts with 50, 56, 57, 58 or 6 and with none of the
overlapping prefixes of earlier rows: the Elo prefixes 5041, 5066, 5067, 509
followed by a digit, 6277, 6362, 6363, 6550, the Discover prefixes 6011, 65,
644 to 649, and the Hipercard prefix 6062. -/
theorem discoverBandeira_aura (s : String) (h : ∀ c ∈ s.data, isDigit c = true) :
    discoverBandeira s = some "Aura" ↔
      (startsWith s "50" = true ∨ startsWith s "56" = true ∨ startsWith s "57" = true ∨
        startsWith s "58" = true ∨ startsWith s "6" = true) ∧
      ¬ (startsWith s "5041" = true ∨ startsWith s "5066" = true ∨
        startsWith s "5067" = true ∨ (startsWith s "509" = true ∧ 4 ≤ s.data.length) ∨
        startsWith s "6277" = true ∨ startsWith s "6362" = true ∨
        startsWith s "6363" = true ∨ startsWith s "6550" = true) ∧
      ¬ (startsWith s "6011" = true ∨ startsWith s "65" = true ∨
        leadingInRange 3 644 649 s = true) ∧
      ¬ startsWith s "6062" = true := by
  obtain ⟨l⟩ := s
  match l, h with
  | [], _ => simp [discoverBandeira_nil, startsWith, leadingInRange, leadingNumber]
  | [a], h =>
    obtain ⟨va, h1, hva⟩ := digit_code (h a (by simp))
    rw [discoverBandeira_cons _ _ h]
    simp only [bandeiraPatterns, firstMatch_cons_eq_some, startsWith_eq_matchPrefix]
    simp [firstMatch, regexTest, matchPrefix, lits, Atom.test, isDigit, leadingInRange,
      leadingNumber, digitValue, hva]
    clear hva h
    interval_cases va <;> simp
  | [a, b], h =>
    obtain ⟨va, h1, hva⟩ := digit_code (h a (by simp))
    obtain ⟨vb, h2, hvb⟩ := digit_code (h b (by simp))
    rw [discoverBandeira_cons _ _ h]
    simp only [bandeiraPatterns, firstMatch_cons_eq_some, startsWith_eq_matchPrefix]
    simp [firstMatch, regexTest, matchPrefix, lits, Atom.test, isDigit, leadingInRange,
      leadingNumber, digitValue, hva, hvb]
    clear hva hvb h
    interval_cases va <;> simp
    omega
  | [a, b, c], h =>
    obtain ⟨va, h1, hva⟩ := digit_code (h a (by simp))
    obtain ⟨vb, h2, hvb⟩ := digit_code (h b (by simp))
    obtain ⟨vc, h3, hvc⟩ := digit_code (h c (by simp))
    rw [discoverBandeira_cons _ _ h]
    simp only [bandeiraPatterns, firstMatch_cons_eq_some, startsWith_eq_matchPrefix]
    simp [firstMatch, regexTest, matchPrefix, lits, Atom.test, isDigit, leadingInRange,
      leadingNumber, digitValue, hva, hvb, hvc]
    clear hva hvb hvc h
    interval_cases va <;> simp <;> (try omega)
  | a :: b :: c :: d :: rest, h =>
    obtain ⟨va, h1, hva⟩ := digit_code (h a (by simp))
    obtain ⟨vb, h2, hvb⟩ := digit_code (h b (by simp))
    obtain ⟨vc, h3, hvc⟩ := digit_code (h c (by simp))
    obtain ⟨vd, h4, hvd⟩ := digit_code (h d (by simp))
    rw [discoverBandeira_cons _ _ h]
    simp only [bandeiraPatterns, firstMatch_cons_eq_some, startsWith_eq_matchPrefix]
    simp [firstMatch, regexTest, matchPrefix, lits, Atom.test, isDigit, leadingInRange,
      leadingNumber, digitValue, hva, hvb, hvc, hvd]
    clear hva hvb hvc hvd h
    interval_cases va <;> simp <;> (try omega)

/-- Witness of C15 at the number of the example call of the module, with and
without its spaces; `validateCreditCard` reports it as a valid Aura card. -/
theorem discoverBandeira_aura_witness :
    discoverBandeira "5009040820211049" = some "Aura" ∧
    discoverBandeira "5009 0408 2021 1049" = some "Aura" ∧
    validateCreditCard "5009 0408 2021 1049" = ⟨true, some "Aura", "Valid Aura card"⟩ :=
  ⟨(discoverBandeira_aura "5009040820211049" (by decide)).2 (by decide),
   by decide, by decide⟩

/-! ## Check digits -/

/-- C18: for every string of decimal digits, the empty one included, exactly one
decimal digit appended to it gives a string on which `luhnCheck` returns
true. -/
theorem luhnCheck_check_digit (p : String) (h : ∀ c ∈ p.data, isDigit c = true) :
    ∃! d : Char, isDigit d = true ∧ luhnCheck ⟨p.data ++ [d]⟩ = true := by
  obtain ⟨d, hd, hv⟩ :=
    exists_digit ((10 - luhnSum true (p.data.reverse.map digitValue) % 10) % 10)
      (Nat.mod_lt _ (by decide))
  refine ⟨d, ⟨hd, ?_⟩, ?_⟩
  · rw [luhnCheck_snoc p d h hd, beq_iff_eq, hv]
    omega
  · rintro e ⟨he, hl⟩
    rw [luhnCheck_snoc p e h he, beq_iff_eq] at hl
    have h1 := digitValue_lt he
    exact digitValue_inj he hd (by omega)

/-- Witness of C18 at the first fifteen digits of a test number. -/
theorem luhnCheck_check_digit_witness :
    ∃! d : Char, isDigit d = true ∧ luhnCheck ⟨"411111111111111".data ++ [d]⟩ = true :=
  luhnCheck_check_digit "411111111111111" (by decide)

end CardId
